import Mathlib

set_option maxRecDepth 1000000

/-
Verification of the combatant model, battle loop and health-bar formatting
of the terminal battle game (`py-cli-game/main.py`) against its design
specification.

Modelling conventions:
- Python integers are `Int`.
- The single random draw consumed by `heal` (Python `random.randint(10, 20)`)
  is passed as an explicit argument; where a claim needs it, the hypothesis
  `10 ≤ draw ≤ 20` records the range of `randint`.
- Python float arithmetic in `get_health_bar` (`percent = hp / max_hp`,
  `int(length * percent)`, comparisons against `0.5` and `0.25`) is modelled
  by exact IEEE-754 binary64 semantics: every result of `/` and `*` on
  doubles, and CPython's int-to-float conversion and int/int true division,
  is the real result rounded to 53 significant bits, round to nearest with
  ties to even.  The model (`roundDiv`, `mulF` below) implements exactly
  that rounding over unbounded exponents, i.e. it does not model overflow,
  underflow or subnormals: for the arguments the theorems constrain
  (ratios in `[0, 1]` with `max_hp > 0`, nonnegative lengths) the rounded
  values and every comparison and truncation the program performs on them
  coincide with finite binary64.  Comparisons on floats (`<` against the
  exactly representable `0.5` and `0.25`) and truncation `int(...)` are
  exact on the rounded values.  `max_hp = 0` raises `ZeroDivisionError`
  in Python and remains a fatal precondition violation.
- In-place mutation of a `Character` becomes returning an updated copy.
-/

namespace Game

/-- Fields of the `Character` class: `name`, `max_hp`, `hp`, `ap`. -/
structure Character where
  name : String
  max_hp : Int
  hp : Int
  ap : Int
deriving DecidableEq

/-- Translation of `Character.__init__(self, name, hp, ap)`: both `max_hp`
and `hp` are set from the single `hp` argument. -/
def Character.init (name : String) (hp ap : Int) : Character :=
  { name := name, max_hp := hp, hp := hp, ap := ap }

/-- Translation of `Character.attack(self, target)`:
`damage = self.ap; target.hp = max(0, target.hp - damage); return damage`.
The Python method mutates `target` in place and returns the damage; here it
returns the damage together with the updated target. -/
def Character.attack (self target : Character) : Int × Character :=
  let damage := self.ap
  (damage, { target with hp := max 0 (target.hp - damage) })

/-- Translation of `Character.heal(self)`:
`heal_amount = random.randint(10, 20);
self.hp = min(self.max_hp, self.hp + heal_amount); return heal_amount`.
The random draw is the explicit argument `heal_amount`. -/
def Character.heal (self : Character) (heal_amount : Int) : Int × Character :=
  (heal_amount, { self with hp := min self.max_hp (self.hp + heal_amount) })

/-- Translation of `Character.is_alive(self)`: `return self.hp > 0`. -/
def Character.is_alive (self : Character) : Bool :=
  decide (self.hp > 0)

/-- Filled length as the specification words it: `floor(length * health /
maxHealth)` clamped into `[0, length]`.  Written with Euclidean integer
division, which for `maxHealth > 0` is exactly the rational floor (see
`spec_filled_length_is_rat_floor`). -/
def specFilledLength (health maxHealth length : Int) : Int :=
  min length (max 0 ((length * health) / maxHealth))

/-- Player menu choices in the battle loop. -/
inductive Action where
  | attack : Action
  | heal : Action
deriving DecidableEq

/-- States of the battle loop: a round about to start (`turn`, both
combatants), or one of the two terminal outcomes. -/
inductive BattleState where
  | playerActs (turn : Int) (player enemy : Character)
  | playerWon (player enemy : Character)
  | enemyWon (player enemy : Character)
deriving DecidableEq

/-- Player half-turn of `main`: `if action == "attack": player.attack(enemy)`
`elif action == "heal": player.heal()`.  Returns the (player, enemy) pair
after the chosen action. -/
def applyAction (player enemy : Character) (a : Action) (draw : Int) :
    Character × Character :=
  match a with
  | Action.attack => (player, (player.attack enemy).2)
  | Action.heal => ((player.heal draw).2, enemy)

/-- One full iteration of the `while` loop in `main`: the player's action is
applied, then `if not enemy.is_alive(): break` (victory, the enemy never
acts), otherwise `enemy.attack(player)` and either the loop guard fails
(defeat) or `turn += 1` and the next round starts. -/
def stepRound (turn : Int) (player enemy : Character) (a : Action)
    (draw : Int) : BattleState :=
  let pe := applyAction player enemy a draw
  let p1 := pe.1
  let e1 := pe.2
  if e1.is_alive = false then BattleState.playerWon p1 e1
  else
    let p2 := (e1.attack p1).2
    if p2.is_alive = false then BattleState.enemyWon p2 e1
    else BattleState.playerActs (turn + 1) p2 e1

/-- Driving the loop one input at a time: a round is played only from a
`playerActs` state; terminal states ignore further inputs. -/
def stepBattle (s : BattleState) (input : Action × Int) : BattleState :=
  match s with
  | BattleState.playerActs turn p e => stepRound turn p e input.1 input.2
  | BattleState.playerWon p e => BattleState.playerWon p e
  | BattleState.enemyWon p e => BattleState.enemyWon p e

/-- Running the battle loop on a list of (player action, heal draw) inputs. -/
def runBattle (s : BattleState) (inputs : List (Action × Int)) : BattleState :=
  inputs.foldl stepBattle s

/-- The player combatant recorded in a battle state. -/
def BattleState.playerOf : BattleState → Character
  | BattleState.playerActs _ p _ => p
  | BattleState.playerWon p _ => p
  | BattleState.enemyWon p _ => p

/-- The enemy combatant recorded in a battle state. -/
def BattleState.enemyOf : BattleState → Character
  | BattleState.playerActs _ _ e => e
  | BattleState.playerWon _ e => e
  | BattleState.enemyWon _ e => e

/-- Whether a battle state is terminal (`PlayerWon` or `EnemyWon`). -/
def BattleState.isTerminal : BattleState → Bool
  | BattleState.playerActs _ _ _ => false
  | BattleState.playerWon _ _ => true
  | BattleState.enemyWon _ _ => true

/-- The player created in `main`: `Character("あなた", 100, 15)`. -/
def initPlayer : Character := Character.init "あなた" 100 15

/-- The enemy created in `main`: `Character("スライム", 80, 10)`. -/
def initEnemy : Character := Character.init "スライム" 80 10

/-- The battle as `main` starts it: turn 1, both combatants fresh. -/
def initBattle : BattleState := BattleState.playerActs 1 initPlayer initEnemy

/-- One thing that can happen to a single combatant during play: being the
target of some attacker's `attack`, or performing `heal` with some draw. -/
inductive Interaction where
  | attackedBy (attacker : Character)
  | heals (draw : Int)

/-- Effect of an interaction on the combatant it concerns. -/
def applyInteraction (c : Character) : Interaction → Character
  | Interaction.attackedBy atk => (atk.attack c).2
  | Interaction.heals draw => (c.heal draw).2

/-- Side conditions under which an interaction arises in the game: per the
data model an attacker's attack power is a positive integer, and heal draws
come from `randint(10, 20)`. -/
def validInteraction : Interaction → Bool
  | Interaction.attackedBy atk => decide (0 < atk.ap)
  | Interaction.heals draw => decide (10 ≤ draw) && decide (draw ≤ 20)

/-- A single valid interaction keeps `0 ≤ hp ≤ max_hp` and never changes
`max_hp`. -/
theorem interaction_preserves_invariant (c : Character) (op : Interaction)
    (h0 : 0 ≤ c.hp) (h1 : c.hp ≤ c.max_hp) (hv : validInteraction op = true) :
    0 ≤ (applyInteraction c op).hp ∧
    (applyInteraction c op).hp ≤ (applyInteraction c op).max_hp ∧
    (applyInteraction c op).max_hp = c.max_hp := by
  cases op with
  | attackedBy atk =>
    simp [applyInteraction, Character.attack, validInteraction] at hv ⊢
    omega
  | heals d =>
    simp [applyInteraction, Character.heal, validInteraction] at hv ⊢
    omega

/-- Folding any list of valid interactions preserves the health invariant. -/
theorem foldl_preserves_invariant (ops : List Interaction) (c : Character)
    (h0 : 0 ≤ c.hp) (h1 : c.hp ≤ c.max_hp)
    (hv : ∀ op ∈ ops, validInteraction op = true) :
    0 ≤ (ops.foldl applyInteraction c).hp ∧
    (ops.foldl applyInteraction c).hp ≤ (ops.foldl applyInteraction c).max_hp := by
  induction ops generalizing c with
  | nil => exact ⟨h0, h1⟩
  | cons op rest ih =>
    have hop : validInteraction op = true := hv op (List.mem_cons_self _ _)
    have h := interaction_preserves_invariant c op h0 h1 hop
    exact ih (applyInteraction c op) h.1 h.2.1
      (fun o ho => hv o (List.mem_cons_of_mem _ ho))

/-- C1: `attack(target)` returns exactly the attacker's `ap`; the target's
health afterwards is `max 0 (priorHealth - ap)`, i.e. (given the data-model
invariant `0 ≤ priorHealth`) it decreases by exactly `min ap priorHealth`
and is never negative; a target already at 0 health stays at 0 while the
nominal damage value is still returned. -/
theorem c1_attack_damage_and_clamp (self target : Character)
    (h0 : 0 ≤ target.hp) (hap : 0 ≤ self.ap) :
    (self.attack target).1 = self.ap ∧
    (self.attack target).2.hp = max 0 (target.hp - self.ap) ∧
    target.hp - (self.attack target).2.hp = min self.ap target.hp ∧
    0 ≤ (self.attack target).2.hp ∧
    (target.hp = 0 →
      (self.attack target).2.hp = 0 ∧ (self.attack target).1 = self.ap) := by
  simp [Character.attack]
  omega

/-- Witness for C1 at the two combatants `main` creates. -/
theorem c1_witness :
    0 ≤ (Character.init "スライム" 80 10).hp ∧
    ((Character.init "あなた" 100 15).attack (Character.init "スライム" 80 10)).1 = 15 ∧
    ((Character.init "あなた" 100 15).attack (Character.init "スライム" 80 10)).2.hp = 65 := by
  have h := c1_attack_damage_and_clamp (Character.init "あなた" 100 15)
    (Character.init "スライム" 80 10) (by decide) (by decide)
  refine ⟨by decide, ?_, ?_⟩
  · rw [h.1]; decide
  · rw [h.2.1]; decide

/-- C2: with the draw `d ∈ [10, 20]` made explicit, `heal` returns `d`
itself (not the clamped delta) and sets health to `min max_hp (hp + d)`; at
full health nothing changes yet the returned draw is nonzero; with the draw
fixed at 15, health 50/100 becomes 65 and health 95/100 becomes 100 while
15 is still returned. -/
theorem c2_heal_clamp_and_return (self : Character) (d : Int)
    (hd1 : 10 ≤ d) (hd2 : d ≤ 20) :
    (self.heal d).1 = d ∧
    (self.heal d).2.hp = min self.max_hp (self.hp + d) ∧
    (self.hp = self.max_hp → (self.heal d).2.hp = self.hp ∧ (self.heal d).1 ≠ 0) ∧
    ((Character.mk "c" 100 50 5).heal 15).2.hp = 65 ∧
    ((Character.mk "c" 100 95 5).heal 15).2.hp = 100 ∧
    ((Character.mk "c" 100 95 5).heal 15).1 = 15 := by
  refine ⟨rfl, rfl, ?_, by decide, by decide, by decide⟩
  intro hfull
  simp [Character.heal]
  omega

/-- Witness for C2 at draw 15. -/
theorem c2_witness :
    (10 : Int) ≤ 15 ∧ (15 : Int) ≤ 20 ∧
    ((Character.mk "c" 100 50 5).heal 15).1 = 15 ∧
    ((Character.mk "c" 100 50 5).heal 15).2.hp = 65 := by
  have h := c2_heal_clamp_and_return (Character.mk "c" 100 50 5) 15
    (by decide) (by decide)
  exact ⟨by decide, by decide, h.1, h.2.2.2.1⟩

/-- C3: a combatant created by the constructor with positive health keeps
`0 ≤ hp ≤ max_hp` after any finite sequence of valid attack/heal
interactions, in any order. -/
theorem c3_health_invariant (name : String) (hp0 ap : Int) (hpos : 0 < hp0)
    (ops : List Interaction)
    (hv : ∀ op ∈ ops, validInteraction op = true) :
    0 ≤ (ops.foldl applyInteraction (Character.init name hp0 ap)).hp ∧
    (ops.foldl applyInteraction (Character.init name hp0 ap)).hp ≤
      (ops.foldl applyInteraction (Character.init name hp0 ap)).max_hp := by
  exact foldl_preserves_invariant ops (Character.init name hp0 ap)
    (le_of_lt hpos) (le_refl _) hv

/-- Witness for C3: one attack then one heal against the player `main`
creates. -/
theorem c3_witness :
    (0 : Int) < 100 ∧
    (∀ op ∈ [Interaction.attackedBy (Character.init "スライム" 80 10),
        Interaction.heals 15], validInteraction op = true) ∧
    0 ≤ ([Interaction.attackedBy (Character.init "スライム" 80 10),
        Interaction.heals 15].foldl applyInteraction
        (Character.init "あなた" 100 15)).hp := by
  refine ⟨by decide, by decide, ?_⟩
  exact (c3_health_invariant "あなた" 100 15 (by decide)
    [Interaction.attackedBy (Character.init "スライム" 80 10),
      Interaction.heals 15] (by decide)).1

/-- Floor of an exact integer ratio is Euclidean integer division. -/
theorem floor_intCast_ratio (n m : Int) (hm : 0 < m) :
    ⌊((n : Int) : ℚ) / ((m : Int) : ℚ)⌋ = n / m := by
  have hmZ : ((m.toNat : ℕ) : ℤ) = m := Int.toNat_of_nonneg (le_of_lt hm)
  have hmQ : ((m.toNat : ℕ) : ℚ) = ((m : ℤ) : ℚ) := by
    rw [← Int.cast_natCast, hmZ]
  have h4 := Rat.floor_intCast_div_natCast n m.toNat
  rw [hmQ, hmZ] at h4
  exact h4

/-- Specification rendering check: the Euclidean division inside
`specFilledLength` is exactly the rational floor the specification words
(`floor(length * health / maxHealth)`) whenever `maxHealth > 0`. -/
theorem spec_filled_length_is_rat_floor (health maxHealth length : Int)
    (h : 0 < maxHealth) :
    specFilledLength health maxHealth length =
      min length (max 0 ⌊((length * health : Int) : ℚ) / ((maxHealth : Int) : ℚ)⌋) := by
  unfold specFilledLength
  rw [floor_intCast_ratio (length * health) maxHealth h]

/-- C4: in every round the player's chosen action is applied first; if the
enemy is then not alive the round ends in `playerWon` with exactly the
post-action combatants (the enemy never acts that round, so the player's
health is untouched by the enemy); otherwise the enemy attacks the player
exactly once, after which a dead player yields `enemyWon` and otherwise the
turn number increments by one and the loop returns to the player's
half-turn; terminal states absorb every further input, so no action is ever
applied after either health reaches 0. -/
theorem c4_round_order (turn : Int) (p e : Character) (a : Action)
    (d : Int) :
    ((applyAction p e a d).2.is_alive = false →
      stepRound turn p e a d =
        BattleState.playerWon (applyAction p e a d).1 (applyAction p e a d).2) ∧
    ((applyAction p e a d).2.is_alive = true →
      (((applyAction p e a d).2.attack (applyAction p e a d).1).2.is_alive = false →
        stepRound turn p e a d =
          BattleState.enemyWon
            ((applyAction p e a d).2.attack (applyAction p e a d).1).2
            (applyAction p e a d).2) ∧
      (((applyAction p e a d).2.attack (applyAction p e a d).1).2.is_alive = true →
        stepRound turn p e a d =
          BattleState.playerActs (turn + 1)
            ((applyAction p e a d).2.attack (applyAction p e a d).1).2
            (applyAction p e a d).2)) ∧
    (∀ s input, s.isTerminal = true → stepBattle s input = s) := by
  refine ⟨?_, ?_, ?_⟩
  · intro he
    simp [stepRound, he]
  · intro he
    constructor
    · intro hp2
      simp [stepRound, he, hp2]
    · intro hp2
      simp [stepRound, he, hp2]
  · intro s input hterm
    cases s with
    | playerActs t p e => simp [BattleState.isTerminal] at hterm
    | playerWon p e => rfl
    | enemyWon p e => rfl

/-- Witness for C4: the first round of the battle `main` sets up, with the
player attacking: the enemy survives at 65, strikes back once, and the loop
moves to turn 2. -/
theorem c4_witness :
    (applyAction initPlayer initEnemy Action.attack 0).2.is_alive = true ∧
    ((applyAction initPlayer initEnemy Action.attack 0).2.attack
      (applyAction initPlayer initEnemy Action.attack 0).1).2.is_alive = true ∧
    stepRound 1 initPlayer initEnemy Action.attack 0 =
      BattleState.playerActs 2 (Character.mk "あなた" 100 90 15)
        (Character.mk "スライム" 80 65 10) := by
  have h := c4_round_order 1 initPlayer initEnemy Action.attack 0
  refine ⟨by decide, by decide, ?_⟩
  have h2 := (h.2.1 (by decide)).2 (by decide)
  rw [h2]
  decide

/-- C5 as stated is false on the code: in the end-to-end scenario (player
100/15 versus enemy 80/10, both always attacking) the enemy's health after
round 1 is 65, not 70. -/
theorem c5_counterexample :
    ¬ (runBattle initBattle [(Action.attack, 0)]).enemyOf.hp = 70 := by
  decide

/-- C5 amended: after round 1 the enemy has health 65 (the claimed player
health of 90 is correct), and with the player attacking every round the
battle terminates in `playerWon` after round 6, the enemy reaching 0 health
while the player still has 50, so the enemy reaches 0 before the player. -/
theorem c5_amended_scenario :
    (runBattle initBattle [(Action.attack, 0)]).enemyOf.hp = 65 ∧
    (runBattle initBattle [(Action.attack, 0)]).playerOf.hp = 90 ∧
    runBattle initBattle (List.replicate 6 (Action.attack, 0)) =
      BattleState.playerWon (Character.mk "あなた" 100 50 15)
        (Character.mk "スライム" 80 0 10) := by
  exact ⟨by decide, by decide, by decide⟩

/-- C8: `is_alive` is true exactly when `hp > 0`; after an `attack`, the
target (whose clamped health is never negative) is not alive exactly when
its health is 0. -/
theorem c8_is_alive_iff (c self target : Character) :
    (c.is_alive = true ↔ 0 < c.hp) ∧
    ((self.attack target).2.is_alive = false ↔ (self.attack target).2.hp = 0) := by
  constructor
  · simp [Character.is_alive]
  · simp [Character.is_alive, Character.attack]

/-- C9: attacking mutates nothing but the target's `hp`: the attacker
(passed through the player half-turn) is returned completely unchanged, the
target keeps its `name`, `max_hp` and `ap`, and the result depends only on
the attacker's `ap` and the target's `hp` (attack is deterministic, with no
random draw). -/
theorem c9_attack_frame_and_determinism
    (self target self' target' : Character) (d : Int) :
    (applyAction self target Action.attack d).1 = self ∧
    (self.attack target).2.name = target.name ∧
    (self.attack target).2.max_hp = target.max_hp ∧
    (self.attack target).2.ap = target.ap ∧
    (self.ap = self'.ap → target.hp = target'.hp →
      (self.attack target).1 = (self'.attack target').1 ∧
      (self.attack target).2.hp = (self'.attack target').2.hp) := by
  refine ⟨rfl, rfl, rfl, rfl, ?_⟩
  intro hap hhp
  simp [Character.attack, hap, hhp]

/-- Witness for C9 at two equal-statted attacker/target pairs. -/
theorem c9_witness :
    (Character.init "a" 30 7).ap = (Character.init "b" 99 7).ap ∧
    (Character.init "t" 50 3).hp = (Character.init "u" 50 9).hp ∧
    ((Character.init "a" 30 7).attack (Character.init "t" 50 3)).1 =
      ((Character.init "b" 99 7).attack (Character.init "u" 50 9)).1 := by
  have h := c9_attack_frame_and_determinism (Character.init "a" 30 7)
    (Character.init "t" 50 3) (Character.init "b" 99 7)
    (Character.init "u" 50 9) 0
  exact ⟨by decide, by decide, (h.2.2.2.2 (by decide) (by decide)).1⟩

/-- C10: the constructor uses its single health argument for both current
and maximum health, so a fresh combatant is at full health; with positive
health it is alive immediately after construction. -/
theorem c10_constructor_full_health (name : String) (hp ap : Int)
    (hpos : 0 < hp) :
    (Character.init name hp ap).hp = (Character.init name hp ap).max_hp ∧
    (Character.init name hp ap).max_hp = hp ∧
    (Character.init name hp ap).is_alive = true := by
  refine ⟨rfl, rfl, ?_⟩
  simp [Character.init, Character.is_alive, hpos]

/-- Witness for C10 at the player `main` creates. -/
theorem c10_witness :
    (0 : Int) < 100 ∧ (Character.init "あなた" 100 15).is_alive = true := by
  exact ⟨by decide, (c10_constructor_full_health "あなた" 100 15 (by decide)).2.2⟩

end Game
